import Mathlib

/-!
Shallow embedding of the image-classification pipeline of this repository
(the webpack-bundled `main.js`, the variant with `argMax`, `predictedClass`
and `isRunning`; the earlier `src/js/main.js` variant with `indexOfMax` is
embedded alongside where a claim names it).

Modelling conventions:
- Pixel byte values and tensor floats are modelled as rationals `ℚ`;
  the normalisation `v / 255.0` is exact division.
- A JavaScript number that may be `undefined` or `NaN` is modelled as
  `Option ℚ`, with `none` standing for the non-numeric value: an
  out-of-bounds read of a typed array yields `undefined`, and
  `undefined / 255.0` is `NaN`.  A `Float32Array` slot holds `some q`
  for a numeric value (slots are zero-initialised to `some 0`).
- Writes past the end of a `Float32Array` are discarded silently, and
  unwritten slots keep their initial `0.0`; both are reflected in
  `imageDataToTensor` by the `take`/`replicate` shape of the result.
- The mutable globals `predictedClass` and `isRunning` become an explicit
  `UIState`; `console.error` output is collected in a list of strings.
-/

namespace OnnxWeb

/-- Global constant `WIDTH = 224` from `main.js`. -/
def WIDTH : ℕ := 224

/-- Global constant `DIMS = [1, 3, WIDTH, WIDTH]` from `main.js`. -/
def DIMS : List ℕ := [1, 3, WIDTH, WIDTH]

/-- Global constant `MAX_LENGTH = DIMS[0] * DIMS[1] * DIMS[2] * DIMS[3]`. -/
def MAX_LENGTH : ℕ := 1 * 3 * WIDTH * WIDTH

/-- Global constant `MAX_SIGNED_VALUE = 255.0`. -/
def MAX_SIGNED_VALUE : ℚ := 255

/-- One RGBA pixel of the decoded image, four byte values. -/
structure Pixel where
  r : ℚ
  g : ℚ
  b : ℚ
  a : ℚ

/-- The raw RGBA buffer returned by `ctx.getImageData(...).data`: the
pixels in row-major order, each contributing its four bytes in order
`r, g, b, a`. -/
def rgbaFlatten : List Pixel → List ℚ
  | [] => []
  | px :: rest => px.r :: px.g :: px.b :: px.a :: rgbaFlatten rest

/-- The extraction loop of `imageDataToTensor`:
`for (let i = 0; i < data.length; i += 4) { R.push(data[i]); G.push(data[i+1]); B.push(data[i+2]); }`.
When `data.length` is not a multiple of 4 the last iteration reads past the
end of the buffer; in JavaScript such a read yields `undefined`, modelled
here as `none`. -/
def extractRGB : List ℚ → List (Option ℚ) × List (Option ℚ) × List (Option ℚ)
  | [] => ([], [], [])
  | [r] => ([some r], [none], [none])
  | [r, g] => ([some r], [some g], [none])
  | [r, g, b] => ([some r], [some g], [some b])
  | r :: g :: b :: _ :: rest =>
    let p := extractRGB rest
    (some r :: p.1, some g :: p.2.1, some b :: p.2.2)

/-- The function `imageDataToTensor(data, dims)` of `main.js`, returning the
backing `Float32Array` of the constructed `ort.Tensor`:
1. the loop above drops every alpha byte and splits the buffer into the
   channel lists `R`, `G`, `B`;
2. `transposedData = R.concat(G).concat(B)`;
3. `float32Data = new Float32Array(MAX_LENGTH)` is zero-initialised, and the
   loop `for (i = 0; i < l; i++) float32Data[i] = transposedData[i] / MAX_SIGNED_VALUE`
   writes the normalised values; writes at indices `MAX_LENGTH` and beyond
   are discarded (`take`), slots never written stay `0.0` (`replicate`).
`undefined / 255.0` is `NaN`, modelled by `Option.map` leaving `none`. -/
def imageDataToTensor (data : List ℚ) : List (Option ℚ) :=
  let p := extractRGB data
  let transposedData := p.1 ++ p.2.1 ++ p.2.2
  (transposedData.map (Option.map (fun v => v / MAX_SIGNED_VALUE))).take MAX_LENGTH
    ++ List.replicate (MAX_LENGTH - transposedData.length) (some 0)

/-- JavaScript comparison `x > y` on numbers that may be `undefined`/`NaN`:
any comparison involving a non-numeric value is `false`. -/
def jsGt : Option ℚ → Option ℚ → Bool
  | some x, some y => decide (y < x)
  | _, _ => false

/-- The loop of `argMax`: scans the elements at indices `i, i+1, ...`
(`rest` is the remaining suffix), keeping the current `max` value and
`maxIndex`, updating both only on a strict `arr[i] > max`. -/
def argMaxAux : List ℚ → ℕ → Option ℚ → ℕ → Option ℚ × ℕ
  | [], _, max, maxIndex => (max, maxIndex)
  | v :: rest, i, max, maxIndex =>
    if jsGt (some v) max then argMaxAux rest (i + 1) (some v) i
    else argMaxAux rest (i + 1) max maxIndex

/-- The function `argMax(arr)` of `main.js`: `max = arr[0]`, `maxIndex = 0`,
scan starts at index 1; returns `[max, maxIndex]`.  On the empty array
`arr[0]` is `undefined` (`none`). -/
def argMax (arr : List ℚ) : Option ℚ × ℕ :=
  argMaxAux arr.tail 1 arr[0]? 0

/-- The loop of `indexOfMax` from the `src/js/main.js` variant: same scan as
`argMax`, additionally pushing each new `maxIndex` onto `sorted`. -/
def indexOfMaxAux : List ℚ → ℕ → Option ℚ → ℕ → List ℕ → ℕ × List ℕ
  | [], _, _, maxIndex, sorted => (maxIndex, sorted.reverse)
  | v :: rest, i, max, maxIndex, sorted =>
    if jsGt (some v) max then indexOfMaxAux rest (i + 1) (some v) i (sorted ++ [i])
    else indexOfMaxAux rest (i + 1) max maxIndex sorted

/-- The function `indexOfMax(arr)` of the `src/js/main.js` variant:
returns `[maxIndex, sorted.reverse()]`. -/
def indexOfMax (arr : List ℚ) : ℕ × List ℕ :=
  indexOfMaxAux arr.tail 1 arr[0]? 0 []

/-- The mutable globals of `main.js`: `predictedClass` (initially the
`undefined` value, modelled `none`) and `isRunning` (initially `false`). -/
structure UIState where
  predictedClass : Option String
  isRunning : Bool

/-- The initial state of the page: `let predictedClass;` leaves the variable
`undefined`, and `let isRunning = false`. -/
def initialState : UIState :=
  { predictedClass := none, isRunning := false }

/-- Outcome of the inference-engine boundary inside `run`: either
`session.run` resolved with an output vector (`results.output1.data`), or
`InferenceSession.create` or `session.run` threw (any engine failure),
carrying the thrown error rendered as a string. -/
inductive RunOutcome where
  | success (output : List ℚ)
  | failure (e : String)

/-- JavaScript template-string rendering of a value that may be `undefined`:
the template turns the `undefined` value into the text `undefined`. -/
def jsToString : Option String → String
  | none => "undefined"
  | some s => s

/-- The state- and console-effect of `async function run(inputTensor)`:
on success it sets `predictedClass` to the template string of
`classes[maxIndex]` (an out-of-range index reads `undefined`, rendered
as the text `undefined`) and clears `isRunning`; the `catch` branch logs
the error with `console.error(e)` and clears `isRunning`.  The function
returns the new state paired with the list of console-error messages; the
exception is caught, never rethrown. -/
def runUpdate (classes : List String) (s : UIState) : RunOutcome → UIState × List String
  | RunOutcome.success output =>
    ({ predictedClass := some (jsToString classes[(argMax output).2]?),
       isRunning := false }, [])
  | RunOutcome.failure e =>
    ({ s with isRunning := false }, [e])

/-- JavaScript strict comparison `predictedClass !== "undefined"`: the
`undefined` value has a different type than a string, so the strict
comparison is `true`; for a string it compares text. -/
def strictNeqUndef : Option String → Bool
  | none => true
  | some s => decide (s ≠ "undefined")

/-- What the periodic renderer writes into `target.innerHTML`. -/
inductive Display where
  | loading
  | result (label : String)
  | empty
deriving DecidableEq

/-- The `window.setInterval` callback of `main.js`: shows the loading
animation while `isRunning`; otherwise, if `predictedClass !== "undefined"`,
shows the result message interpolating `predictedClass` with a template
string; otherwise shows the empty string. -/
def renderStatus (isRunning : Bool) (predictedClass : Option String) : Display :=
  if isRunning then Display.loading
  else if strictNeqUndef predictedClass then Display.result (jsToString predictedClass)
  else Display.empty

/-- The solid red pixel `(255, 0, 0, 255)`. -/
def redPixel : Pixel := ⟨255, 0, 0, 255⟩

/-! ### Helper lemmas: the tensor builder -/

theorem rgbaFlatten_length (pixels : List Pixel) :
    (rgbaFlatten pixels).length = 4 * pixels.length := by
  induction pixels with
  | nil => simp [rgbaFlatten]
  | cons px rest ih => simp [rgbaFlatten, ih]; ring

theorem extractRGB_rgbaFlatten (pixels : List Pixel) :
    extractRGB (rgbaFlatten pixels)
      = (pixels.map (fun px => some px.r),
         pixels.map (fun px => some px.g),
         pixels.map (fun px => some px.b)) := by
  induction pixels with
  | nil => rfl
  | cons px rest ih => simp [rgbaFlatten, extractRGB, ih]

theorem imageDataToTensor_length (data : List ℚ) :
    (imageDataToTensor data).length = MAX_LENGTH := by
  simp only [imageDataToTensor, List.length_append, List.length_take,
    List.length_replicate, List.length_map]
  omega

theorem imageDataToTensor_pixels (pixels : List Pixel)
    (h : pixels.length = WIDTH * WIDTH) :
    imageDataToTensor (rgbaFlatten pixels)
      = pixels.map (fun px => some (px.r / MAX_SIGNED_VALUE))
        ++ pixels.map (fun px => some (px.g / MAX_SIGNED_VALUE))
        ++ pixels.map (fun px => some (px.b / MAX_SIGNED_VALUE)) := by
  simp only [imageDataToTensor, extractRGB_rgbaFlatten]
  have hlen : ((pixels.map fun px => some px.r) ++ (pixels.map fun px => some px.g)
      ++ (pixels.map fun px => some px.b)).length = MAX_LENGTH := by
    simp only [List.length_append, List.length_map, h]
    norm_num [MAX_LENGTH, WIDTH]
  rw [List.take_of_length_le (by rw [List.length_map, hlen]), hlen, Nat.sub_self,
    List.replicate_zero, List.append_nil]
  simp [List.map_append, List.map_map, Function.comp_def]

theorem mem_rgbaFlatten_of_mem (pixels : List Pixel) (px : Pixel) (h : px ∈ pixels) :
    px.r ∈ rgbaFlatten pixels ∧ px.g ∈ rgbaFlatten pixels ∧ px.b ∈ rgbaFlatten pixels := by
  induction pixels with
  | nil => cases h
  | cons q rest ih =>
    rcases List.mem_cons.mp h with h1 | h2
    · subst h1; simp [rgbaFlatten]
    · have := ih h2
      simp only [rgbaFlatten, List.mem_cons]
      tauto

theorem exists_pixels (n : ℕ) : ∀ data : List ℚ, data.length = 4 * n →
    ∃ pixels : List Pixel, pixels.length = n ∧ rgbaFlatten pixels = data := by
  induction n with
  | zero =>
    intro data h
    simp only [Nat.mul_zero, List.length_eq_zero] at h
    exact ⟨[], rfl, by simp [h, rgbaFlatten]⟩
  | succ n ih =>
    intro data h
    match data with
    | [] => simp at h
    | [r] => simp at h; omega
    | [r, g] => simp at h; omega
    | [r, g, b] => simp at h; omega
    | r :: g :: b :: a :: rest =>
      have hrest : rest.length = 4 * n := by simp at h; omega
      obtain ⟨pixels, hp, hf⟩ := ih rest hrest
      exact ⟨⟨r, g, b, a⟩ :: pixels, by simp [hp], by simp [rgbaFlatten, hf]⟩

theorem div255_bounds (q : ℚ) (h0 : 0 ≤ q) (h1 : q ≤ 255) :
    0 ≤ q / MAX_SIGNED_VALUE ∧ q / MAX_SIGNED_VALUE ≤ 1 := by
  constructor
  · exact div_nonneg h0 (by norm_num [MAX_SIGNED_VALUE])
  · rw [div_le_one (by norm_num [MAX_SIGNED_VALUE])]
    simpa [MAX_SIGNED_VALUE] using h1

theorem imageDataToTensor_trailing_zero (data : List ℚ) (i : ℕ)
    (hi : ((extractRGB data).1 ++ (extractRGB data).2.1 ++ (extractRGB data).2.2).length ≤ i)
    (hmax : i < MAX_LENGTH) :
    (imageDataToTensor data)[i]? = some (some 0) := by
  simp only [imageDataToTensor]
  set t := (extractRGB data).1 ++ (extractRGB data).2.1 ++ (extractRGB data).2.2 with ht
  have hta : ((t.map (Option.map fun v => v / MAX_SIGNED_VALUE)).take MAX_LENGTH).length
      = min MAX_LENGTH t.length := by
    simp
  rw [List.getElem?_append_right (by omega)]
  rw [List.getElem?_replicate]
  rw [if_pos (by omega)]

/-! ### Helper lemmas: the argmax scan -/

theorem argMaxAux_inv (rest : List ℚ) :
    ∀ (arr : List ℚ) (i mi : ℕ) (m : ℚ),
      arr.drop i = rest →
      mi < i →
      arr[mi]? = some m →
      (∀ k v, k < i → arr[k]? = some v → v ≤ m) →
      (∀ k v, k < mi → arr[k]? = some v → v < m) →
      ∃ m' mi', argMaxAux rest i (some m) mi = (some m', mi') ∧
        arr[mi']? = some m' ∧
        (∀ k v, k < arr.length → arr[k]? = some v → v ≤ m') ∧
        (∀ k v, k < mi' → arr[k]? = some v → v < m') := by
  induction rest with
  | nil =>
    intro arr i mi m hdrop hmi hget hle hlt
    refine ⟨m, mi, rfl, hget, ?_, hlt⟩
    intro k v hk hkv
    have hlen : arr.length ≤ i := by
      have := congrArg List.length hdrop
      simp only [List.length_drop, List.length_nil] at this
      omega
    exact hle k v (lt_of_lt_of_le hk hlen) hkv
  | cons v rest ih =>
    intro arr i mi m hdrop hmi hget hle hlt
    have hv : arr[i]? = some v := by
      have h0 : (arr.drop i)[0]? = some v := by rw [hdrop]; simp
      rwa [List.getElem?_drop, Nat.add_zero] at h0
    have hdrop' : arr.drop (i + 1) = rest := by
      rw [← List.tail_drop, hdrop]
      simp
    by_cases hcmp : m < v
    · have hgt : jsGt (some v) (some m) = true := by simp [jsGt, hcmp]
      simp only [argMaxAux, hgt, if_true]
      refine ih arr (i + 1) i v hdrop' (Nat.lt_succ_self i) hv ?_ ?_
      · intro k u hk hku
        rcases Nat.lt_succ_iff_lt_or_eq.mp hk with hk' | hk'
        · exact le_of_lt (lt_of_le_of_lt (hle k u hk' hku) hcmp)
        · subst hk'
          rw [hv] at hku
          exact le_of_eq (Option.some.inj hku).symm
      · intro k u hk hku
        exact lt_of_le_of_lt (hle k u hk hku) hcmp
    · have hgt : jsGt (some v) (some m) = false := by simp [jsGt]; exact le_of_not_lt hcmp
      simp only [argMaxAux, hgt, if_false, Bool.false_eq_true]
      refine ih arr (i + 1) mi m hdrop' (Nat.lt_succ_of_lt hmi) hget ?_ hlt
      intro k u hk hku
      rcases Nat.lt_succ_iff_lt_or_eq.mp hk with hk' | hk'
      · exact hle k u hk' hku
      · subst hk'
        rw [hv] at hku
        have huv : v = u := Option.some.inj hku
        subst huv
        exact le_of_not_lt hcmp

theorem argMax_spec (arr : List ℚ) (h : arr ≠ []) :
    ∃ m mi, argMax arr = (some m, mi) ∧ arr[mi]? = some m ∧
      (∀ k v, k < arr.length → arr[k]? = some v → v ≤ m) ∧
      (∀ k v, k < mi → arr[k]? = some v → v < m) := by
  match arr with
  | a :: t =>
    have h0 : (a :: t)[0]? = some a := by simp
    have hinv := argMaxAux_inv t (a :: t) 1 0 a rfl Nat.zero_lt_one h0
      (by
        intro k u hk hku
        interval_cases k
        rw [h0] at hku
        exact le_of_eq (Option.some.inj hku).symm)
      (by intro k u hk hku; omega)
    obtain ⟨m, mi, heq, hget, hle, hlt⟩ := hinv
    refine ⟨m, mi, ?_, hget, hle, hlt⟩
    simpa [argMax] using heq

theorem indexOfMaxAux_fst (rest : List ℚ) :
    ∀ (i : ℕ) (max : Option ℚ) (mi : ℕ) (s : List ℕ),
      (indexOfMaxAux rest i max mi s).1 = (argMaxAux rest i max mi).2 := by
  induction rest with
  | nil => intro i max mi s; rfl
  | cons v rest ih =>
    intro i max mi s
    simp only [indexOfMaxAux, argMaxAux]
    by_cases hc : jsGt (some v) max <;> simp [hc, ih]

theorem indexOfMax_fst (arr : List ℚ) : (indexOfMax arr).1 = (argMax arr).2 :=
  indexOfMaxAux_fst arr.tail 1 arr[0]? 0 []

theorem tensor_pixels_getElem (pixels : List Pixel) (h : pixels.length = WIDTH * WIDTH)
    (p : ℕ) (hp : p < WIDTH * WIDTH) (px : Pixel) (hpx : pixels[p]? = some px) :
    (imageDataToTensor (rgbaFlatten pixels))[p]? = some (some (px.r / MAX_SIGNED_VALUE)) ∧
    (imageDataToTensor (rgbaFlatten pixels))[WIDTH * WIDTH + p]?
        = some (some (px.g / MAX_SIGNED_VALUE)) ∧
    (imageDataToTensor (rgbaFlatten pixels))[2 * (WIDTH * WIDTH) + p]?
        = some (some (px.b / MAX_SIGNED_VALUE)) := by
  rw [imageDataToTensor_pixels pixels h]
  have hR : (pixels.map fun px => some (px.r / MAX_SIGNED_VALUE)).length = WIDTH * WIDTH := by
    simp [h]
  have hG : (pixels.map fun px => some (px.g / MAX_SIGNED_VALUE)).length = WIDTH * WIDTH := by
    simp [h]
  have hB : (pixels.map fun px => some (px.b / MAX_SIGNED_VALUE)).length = WIDTH * WIDTH := by
    simp [h]
  refine ⟨?_, ?_, ?_⟩
  · rw [List.getElem?_append_left (by rw [List.length_append, hR, hG]; omega)]
    rw [List.getElem?_append_left (by rw [hR]; omega)]
    simp [List.getElem?_map, hpx]
  · rw [List.getElem?_append_left (by rw [List.length_append, hR, hG]; omega)]
    rw [List.getElem?_append_right (by rw [hR]; omega)]
    rw [hR, Nat.add_sub_cancel_left]
    simp [List.getElem?_map, hpx]
  · rw [List.getElem?_append_right (by rw [List.length_append, hR, hG]; omega)]
    rw [List.length_append, hR, hG]
    have hidx : 2 * (WIDTH * WIDTH) + p - (WIDTH * WIDTH + WIDTH * WIDTH) = p := by omega
    rw [hidx]
    simp [List.getElem?_map, hpx]

/-! ### Claims -/

/-- C1: for every RGBA input buffer of length `W*W*4` (`W = 224`, presented as
its row-major pixel list, so that the pixel at coordinates `(x, y)` is entry
`y*W + x` with byte values `(r, g, b, a)`), the Tensor Builder output of
`imageDataToTensor` at flattened index `0*W*W + y*W + x` equals `r/255.0`, at
`1*W*W + y*W + x` equals `g/255.0`, and at `2*W*W + y*W + x` equals `b/255.0`:
the alpha byte is dropped, the layout is transposed from pixel-major `(H,W,C)`
to channel-major `(C,H,W)`, and each byte is normalised by dividing by 255. -/
theorem c1_tensor_roundtrip (pixels : List Pixel) (h : pixels.length = WIDTH * WIDTH)
    (x y : ℕ) (hx : x < WIDTH) (hy : y < WIDTH) (px : Pixel)
    (hpx : pixels[y * WIDTH + x]? = some px) :
    (imageDataToTensor (rgbaFlatten pixels))[0 * (WIDTH * WIDTH) + (y * WIDTH + x)]?
        = some (some (px.r / MAX_SIGNED_VALUE)) ∧
    (imageDataToTensor (rgbaFlatten pixels))[1 * (WIDTH * WIDTH) + (y * WIDTH + x)]?
        = some (some (px.g / MAX_SIGNED_VALUE)) ∧
    (imageDataToTensor (rgbaFlatten pixels))[2 * (WIDTH * WIDTH) + (y * WIDTH + x)]?
        = some (some (px.b / MAX_SIGNED_VALUE)) := by
  have hp : y * WIDTH + x < WIDTH * WIDTH := by
    simp only [WIDTH] at hx hy ⊢
    omega
  simpa only [Nat.zero_mul, Nat.zero_add, Nat.one_mul]
    using tensor_pixels_getElem pixels h (y * WIDTH + x) hp px hpx

/-- Witness for C1: the all-red image, pixel `(0, 0)`. -/
theorem c1_tensor_roundtrip_witness :
    ((List.replicate (WIDTH * WIDTH) redPixel).length = WIDTH * WIDTH
      ∧ 0 < WIDTH
      ∧ (List.replicate (WIDTH * WIDTH) redPixel)[0 * WIDTH + 0]? = some redPixel) ∧
    ((imageDataToTensor (rgbaFlatten (List.replicate (WIDTH * WIDTH) redPixel)))[0 * (WIDTH * WIDTH) + (0 * WIDTH + 0)]?
        = some (some (redPixel.r / MAX_SIGNED_VALUE)) ∧
     (imageDataToTensor (rgbaFlatten (List.replicate (WIDTH * WIDTH) redPixel)))[1 * (WIDTH * WIDTH) + (0 * WIDTH + 0)]?
        = some (some (redPixel.g / MAX_SIGNED_VALUE)) ∧
     (imageDataToTensor (rgbaFlatten (List.replicate (WIDTH * WIDTH) redPixel)))[2 * (WIDTH * WIDTH) + (0 * WIDTH + 0)]?
        = some (some (redPixel.b / MAX_SIGNED_VALUE))) :=
  ⟨⟨by simp, by norm_num [WIDTH],
    by rw [List.getElem?_replicate, if_pos (by norm_num [WIDTH])]⟩,
   c1_tensor_roundtrip (List.replicate (WIDTH * WIDTH) redPixel) (by simp) 0 0
     (by norm_num [WIDTH]) (by norm_num [WIDTH]) redPixel
     (by rw [List.getElem?_replicate, if_pos (by norm_num [WIDTH])])⟩

/-- C6: for the solid red 224 by 224 RGBA image (every pixel `(255,0,0,255)`),
the Tensor Builder output has `1.0` at every index in the first `224*224`
block, and `0.0` at every index of the second and third blocks. -/
theorem c6_solid_red (j : ℕ) (hj : j < WIDTH * WIDTH) :
    (imageDataToTensor (rgbaFlatten (List.replicate (WIDTH * WIDTH) redPixel)))[j]?
        = some (some 1) ∧
    (imageDataToTensor (rgbaFlatten (List.replicate (WIDTH * WIDTH) redPixel)))[WIDTH * WIDTH + j]?
        = some (some 0) ∧
    (imageDataToTensor (rgbaFlatten (List.replicate (WIDTH * WIDTH) redPixel)))[2 * (WIDTH * WIDTH) + j]?
        = some (some 0) := by
  have hpx : (List.replicate (WIDTH * WIDTH) redPixel)[j]? = some redPixel := by
    rw [List.getElem?_replicate, if_pos hj]
  have hmain := tensor_pixels_getElem (List.replicate (WIDTH * WIDTH) redPixel)
    (by simp) j hj redPixel hpx
  have h1 : redPixel.r / MAX_SIGNED_VALUE = 1 := by norm_num [redPixel, MAX_SIGNED_VALUE]
  have h2 : redPixel.g / MAX_SIGNED_VALUE = 0 := by norm_num [redPixel, MAX_SIGNED_VALUE]
  have h3 : redPixel.b / MAX_SIGNED_VALUE = 0 := by norm_num [redPixel, MAX_SIGNED_VALUE]
  rw [h1, h2, h3] at hmain
  exact hmain

/-- Witness for C6 at index 0 of each channel block. -/
theorem c6_solid_red_witness :
    (0 < WIDTH * WIDTH) ∧
    ((imageDataToTensor (rgbaFlatten (List.replicate (WIDTH * WIDTH) redPixel)))[0]?
        = some (some 1) ∧
     (imageDataToTensor (rgbaFlatten (List.replicate (WIDTH * WIDTH) redPixel)))[WIDTH * WIDTH + 0]?
        = some (some 0) ∧
     (imageDataToTensor (rgbaFlatten (List.replicate (WIDTH * WIDTH) redPixel)))[2 * (WIDTH * WIDTH) + 0]?
        = some (some 0)) :=
  ⟨by norm_num [WIDTH], c6_solid_red 0 (by norm_num [WIDTH])⟩

/-- C2 (code evidence): the Tensor Builder does not abort on a mismatched
buffer. For the single-pixel RGBA buffer `[255, 0, 0, 255]` (3 channel values
after alpha removal, not `3*224*224`), `imageDataToTensor` still returns a
full-length tensor: slot 0 holds the normalised red byte and the trailing
slot holds `0.0`. The bundled `main.js` performs no size check at all, and
the `src/js/main.js` variant only logs with `console.error` and continues;
neither aborts the request with a `TensorShapeMismatch` error. -/
theorem c2_silent_continuation :
    (imageDataToTensor [255, 0, 0, 255]).length = MAX_LENGTH ∧
    (imageDataToTensor [255, 0, 0, 255])[0]? = some (some 1) ∧
    (imageDataToTensor [255, 0, 0, 255])[MAX_LENGTH - 1]? = some (some 0) := by
  have he : extractRGB [255, 0, 0, 255] = ([some 255], [some 0], [some 0]) := rfl
  refine ⟨imageDataToTensor_length _, ?_, ?_⟩
  · simp only [imageDataToTensor, he]
    rw [List.take_of_length_le (by norm_num [MAX_LENGTH, WIDTH])]
    rw [List.getElem?_append_left (by norm_num)]
    norm_num [MAX_SIGNED_VALUE]
  · exact imageDataToTensor_trailing_zero [255, 0, 0, 255] (MAX_LENGTH - 1)
      (by rw [he]; norm_num [MAX_LENGTH, WIDTH])
      (by norm_num [MAX_LENGTH, WIDTH])

/-- C3: for every non-empty output vector the argmax scan (both `argMax` and
the `indexOfMax` variant) returns the index of the first maximal element: the
returned index holds the returned maximum, every element is at most that
maximum, and every element before the index is strictly smaller (the
strict-greater comparison lets the first maximal value win ties); in
particular on `[0.1, 0.9, 0.9, 0.2]` the returned index is `1`, not `2`. -/
theorem c3_argmax_first_max (arr : List ℚ) (h : arr ≠ []) :
    (∃ m mi, argMax arr = (some m, mi) ∧ (indexOfMax arr).1 = mi ∧
      arr[mi]? = some m ∧
      (∀ k v, k < arr.length → arr[k]? = some v → v ≤ m) ∧
      (∀ k v, k < mi → arr[k]? = some v → v < m)) ∧
    (argMax [(1 : ℚ)/10, 9/10, 9/10, 2/10]).2 = 1 ∧
    (indexOfMax [(1 : ℚ)/10, 9/10, 9/10, 2/10]).1 = 1 := by
  refine ⟨?_, by norm_num [argMax, argMaxAux, jsGt],
    by norm_num [indexOfMax, indexOfMaxAux, jsGt]⟩
  obtain ⟨m, mi, heq, hget, hle, hlt⟩ := argMax_spec arr h
  refine ⟨m, mi, heq, ?_, hget, hle, hlt⟩
  rw [indexOfMax_fst, heq]

/-- Witness for C3 at the tie vector `[0.1, 0.9, 0.9, 0.2]`. -/
theorem c3_argmax_first_max_witness :
    ([(1 : ℚ)/10, 9/10, 9/10, 2/10] ≠ []) ∧
    ((∃ m mi, argMax [(1 : ℚ)/10, 9/10, 9/10, 2/10] = (some m, mi) ∧
        (indexOfMax [(1 : ℚ)/10, 9/10, 9/10, 2/10]).1 = mi ∧
        [(1 : ℚ)/10, 9/10, 9/10, 2/10][mi]? = some m ∧
        (∀ k v, k < ([(1 : ℚ)/10, 9/10, 9/10, 2/10] : List ℚ).length →
          [(1 : ℚ)/10, 9/10, 9/10, 2/10][k]? = some v → v ≤ m) ∧
        (∀ k v, k < mi → [(1 : ℚ)/10, 9/10, 9/10, 2/10][k]? = some v → v < m)) ∧
      (argMax [(1 : ℚ)/10, 9/10, 9/10, 2/10]).2 = 1 ∧
      (indexOfMax [(1 : ℚ)/10, 9/10, 9/10, 2/10]).1 = 1) :=
  ⟨by simp, c3_argmax_first_max [(1 : ℚ)/10, 9/10, 9/10, 2/10] (by simp)⟩

/-- C4: for every RGBA input buffer of length `W*W*4` with byte values in
`[0, 255]`, the Tensor Builder output has length exactly `3*W*W` and every
output value is a number in the closed interval `[0, 1]`. -/
theorem c4_length_and_range (data : List ℚ) (h : data.length = WIDTH * WIDTH * 4)
    (hb : ∀ v ∈ data, 0 ≤ v ∧ v ≤ 255) :
    (imageDataToTensor data).length = 3 * (WIDTH * WIDTH) ∧
    ∀ o ∈ imageDataToTensor data, ∃ q : ℚ, o = some q ∧ 0 ≤ q ∧ q ≤ 1 := by
  obtain ⟨pixels, hplen, hflat⟩ := exists_pixels (WIDTH * WIDTH) data (by rw [h]; ring)
  constructor
  · rw [imageDataToTensor_length]
    norm_num [MAX_LENGTH, WIDTH]
  · intro o ho
    rw [← hflat, imageDataToTensor_pixels pixels hplen] at ho
    have hbp : ∀ px : Pixel, px ∈ pixels →
        (0 ≤ px.r ∧ px.r ≤ 255) ∧ (0 ≤ px.g ∧ px.g ≤ 255) ∧ (0 ≤ px.b ∧ px.b ≤ 255) := by
      intro px hmem
      obtain ⟨hr, hg, hbm⟩ := mem_rgbaFlatten_of_mem pixels px hmem
      rw [hflat] at hr hg hbm
      exact ⟨hb _ hr, hb _ hg, hb _ hbm⟩
    simp only [List.mem_append, List.mem_map] at ho
    rcases ho with (⟨px, hmem, rfl⟩ | ⟨px, hmem, rfl⟩) | ⟨px, hmem, rfl⟩
    · obtain ⟨⟨h0, h1⟩, _, _⟩ := hbp px hmem
      exact ⟨px.r / MAX_SIGNED_VALUE, rfl,
        (div255_bounds px.r h0 h1).1, (div255_bounds px.r h0 h1).2⟩
    · obtain ⟨_, ⟨h0, h1⟩, _⟩ := hbp px hmem
      exact ⟨px.g / MAX_SIGNED_VALUE, rfl,
        (div255_bounds px.g h0 h1).1, (div255_bounds px.g h0 h1).2⟩
    · obtain ⟨_, _, h0, h1⟩ := hbp px hmem
      exact ⟨px.b / MAX_SIGNED_VALUE, rfl,
        (div255_bounds px.b h0 h1).1, (div255_bounds px.b h0 h1).2⟩

/-- Witness for C4 at the all-zero RGBA buffer. -/
theorem c4_length_and_range_witness :
    ((List.replicate (WIDTH * WIDTH * 4) (0 : ℚ)).length = WIDTH * WIDTH * 4
      ∧ ∀ v ∈ List.replicate (WIDTH * WIDTH * 4) (0 : ℚ), 0 ≤ v ∧ v ≤ 255) ∧
    ((imageDataToTensor (List.replicate (WIDTH * WIDTH * 4) (0 : ℚ))).length
        = 3 * (WIDTH * WIDTH) ∧
      ∀ o ∈ imageDataToTensor (List.replicate (WIDTH * WIDTH * 4) (0 : ℚ)),
        ∃ q : ℚ, o = some q ∧ 0 ≤ q ∧ q ≤ 1) :=
  ⟨⟨by simp, fun v hv => by rw [List.eq_of_mem_replicate hv]; norm_num⟩,
   c4_length_and_range (List.replicate (WIDTH * WIDTH * 4) (0 : ℚ)) (by simp)
     (fun v hv => by rw [List.eq_of_mem_replicate hv]; norm_num)⟩

/-- C5: every failure of the inference-engine boundary inside `run` is caught
(the handler returns normally instead of rethrowing, so the process does not
crash), the error is surfaced on the console-error channel, and the UI busy
flag `isRunning` is cleared on both the success path and the error path. -/
theorem c5_run_failure_nonfatal (classes : List String) (s : UIState) (o : RunOutcome) :
    (runUpdate classes s o).1.isRunning = false ∧
    (∀ e, o = RunOutcome.failure e → e ∈ (runUpdate classes s o).2) := by
  cases o with
  | success output => exact ⟨rfl, fun e he => by cases he⟩
  | failure e =>
    refine ⟨rfl, fun e' he' => ?_⟩
    cases he'
    simp [runUpdate]

/-- Witness for C5 at a concrete engine-load failure. -/
theorem c5_run_failure_nonfatal_witness :
    (runUpdate [] initialState (RunOutcome.failure "EngineLoadError")).1.isRunning = false ∧
    "EngineLoadError" ∈ (runUpdate [] initialState (RunOutcome.failure "EngineLoadError")).2 :=
  ⟨(c5_run_failure_nonfatal [] initialState (RunOutcome.failure "EngineLoadError")).1,
   (c5_run_failure_nonfatal [] initialState (RunOutcome.failure "EngineLoadError")).2
     "EngineLoadError" rfl⟩

/-- C7: the classifier decode step is deterministic and depends only on the
output vector and the label table: the `predictedClass` written by a
successful `run` is the same from any two prior UI states, and the
`indexOfMax` variant returns the same index as `argMax` on every vector, so
the same input vector always yields the same label. -/
theorem c7_decoder_pure (classes : List String) (s₁ s₂ : UIState) (output : List ℚ) :
    (runUpdate classes s₁ (RunOutcome.success output)).1.predictedClass
      = (runUpdate classes s₂ (RunOutcome.success output)).1.predictedClass ∧
    (indexOfMax output).1 = (argMax output).2 :=
  ⟨rfl, indexOfMax_fst output⟩

/-- C8: for every input buffer of any length, `imageDataToTensor` returns a
backing array of length exactly `3*224*224`: the array is pre-allocated and
zero-initialised, so every slot at or beyond the number of extracted channel
values (but below `MAX_LENGTH`) still holds `0.0`, and writes at or beyond
`MAX_LENGTH` are discarded; the embedding is a total function, reflecting
that no out-of-bounds access and no exception occur. -/
theorem c8_preallocated_output (data : List ℚ) :
    (imageDataToTensor data).length = MAX_LENGTH ∧
    ∀ i, ((extractRGB data).1 ++ (extractRGB data).2.1 ++ (extractRGB data).2.2).length ≤ i →
      i < MAX_LENGTH → (imageDataToTensor data)[i]? = some (some 0) :=
  ⟨imageDataToTensor_length data,
   fun i hi hmax => imageDataToTensor_trailing_zero data i hi hmax⟩

/-- Witness for C8 at the empty buffer and slot 0. -/
theorem c8_preallocated_output_witness :
    (((extractRGB ([] : List ℚ)).1 ++ (extractRGB ([] : List ℚ)).2.1
        ++ (extractRGB ([] : List ℚ)).2.2).length ≤ 0
      ∧ 0 < MAX_LENGTH) ∧
    ((imageDataToTensor ([] : List ℚ)).length = MAX_LENGTH ∧
      (imageDataToTensor ([] : List ℚ))[0]? = some (some 0)) :=
  ⟨⟨by simp [extractRGB], by norm_num [MAX_LENGTH, WIDTH]⟩,
   ⟨(c8_preallocated_output []).1,
    (c8_preallocated_output []).2 0 (by simp [extractRGB]) (by norm_num [MAX_LENGTH, WIDTH])⟩⟩

/-- C9: on the empty output vector the decoders do not fail: `argMax([])`
returns the `undefined` maximum paired with index 0, and `indexOfMax([])`
returns index 0 paired with the empty list, because the scan starts at index
1 and the initial candidate index is 0; an empty engine output silently
decodes to class index 0 instead of raising an error. -/
theorem c9_empty_vector :
    argMax ([] : List ℚ) = (none, 0) ∧ indexOfMax ([] : List ℚ) = (0, []) :=
  ⟨rfl, rfl⟩

/-- C10: in the initial state, before any classification has run
(`isRunning = false`, `predictedClass` still the `undefined` value), the
periodic status renderer takes the result branch rather than the
empty-display branch, because it compares `predictedClass` against the string
literal `"undefined"` with `!==`; the display therefore shows a result
message interpolating the unset value (rendered as the text `undefined`)
instead of the empty string. -/
theorem c10_initial_render :
    renderStatus initialState.isRunning initialState.predictedClass
        = Display.result (jsToString none) ∧
    jsToString none = "undefined" ∧
    renderStatus initialState.isRunning initialState.predictedClass ≠ Display.empty := by
  refine ⟨rfl, rfl, ?_⟩
  decide

end OnnxWeb
